import Mathlib

/-!
Verification of the book-app-api backend (Django REST framework application).

This file gives a shallow embedding of the data model (Book, Tag, Author with
per-user ownership and many-to-many associations), of the serializer layer
(app/book/serializers.py: nested tag/author reconciliation via get_or_create,
create and update semantics), and of the view layer (app/book/views.py:
ownership-scoped querysets, comma-separated id filters, assigned_only flag,
image upload), together with theorems about the behaviour of these
operations.

Conventions of the embedding:
- the relational store is a record of lists; ids are natural numbers handed
  out from per-table counters;
- Tag and Author rows have the same shape (id, user, name); both tables are
  lists of the Attr structure, mirroring the shared base classes in the
  source (BaseBookAttrViewSet, and the twin methods of BookSerializer);
- a Python function that can raise an exception which no code in this layer
  catches is embedded as an Option-valued function, none standing for the
  escaping exception;
- HTTP handlers return a status code paired with the resulting store.
-/

/-- A Tag or Author row: primary key, owning user id, name.  Tag and Author
have literally the same fields in the data model, and the book layer treats
them through one shared code path, so one Lean structure serves for both
tables. -/
structure Attr where
  id : Nat
  user : Nat
  name : String
deriving Repr, DecidableEq

/-- A Book row.  The price is a fixed-point decimal in the source; it is
embedded as an integer count of hundredths.  The tags and authors fields are
the many-to-many association sets, held as lists of Attr ids. -/
structure Book where
  id : Nat
  user : Nat
  title : String
  price : Int
  link : String
  description : String
  image : Option String
  tags : List Nat
  authors : List Nat
deriving Repr, DecidableEq

/-- The relational store: the three tables and the id counters. -/
structure Store where
  books : List Book
  tags : List Attr
  authors : List Attr
  nextBookId : Nat
  nextTagId : Nat
  nextAuthorId : Nat
deriving Repr, DecidableEq

/-- Well-formedness of an attribute table: ids are below the counter, the
pair (user, name) identifies at most one row, and ids are unique. -/
def AttrsWF (recs : List Attr) (next : Nat) : Prop :=
  (∀ a ∈ recs, a.id < next) ∧
  (∀ a ∈ recs, ∀ b ∈ recs, a.user = b.user → a.name = b.name → a = b) ∧
  (∀ a ∈ recs, ∀ b ∈ recs, a.id = b.id → a = b)

instance (recs : List Attr) (next : Nat) : Decidable (AttrsWF recs next) := by
  unfold AttrsWF; infer_instance

/-- Well-formedness of the book table: ids are below the counter and unique. -/
def BooksWF (books : List Book) (next : Nat) : Prop :=
  (∀ b ∈ books, b.id < next) ∧
  (∀ a ∈ books, ∀ b ∈ books, a.id = b.id → a = b)

instance (books : List Book) (next : Nat) : Decidable (BooksWF books next) := by
  unfold BooksWF; infer_instance

/-- Well-formedness of the whole store. -/
def StoreWF (s : Store) : Prop :=
  BooksWF s.books s.nextBookId ∧
  AttrsWF s.tags s.nextTagId ∧
  AttrsWF s.authors s.nextAuthorId

instance (s : Store) : Decidable (StoreWF s) := by
  unfold StoreWF; infer_instance

/-- Adding to a Django many-to-many association set is a no-op when the id is
already associated (book.tags.add). -/
def m2mAdd (assoc : List Nat) (i : Nat) : List Nat :=
  if i ∈ assoc then assoc else assoc ++ [i]

/-- Tag.objects.get_or_create(user=..., name=...) over an attribute table:
return the first row matching (user, name); if none exists, insert a fresh
row with the next id.  Returns the resolved row, the new table, and the new
id counter.  The ORM raises MultipleObjectsReturned when several rows match;
the theorems below therefore assume the (user, name) uniqueness of AttrsWF,
under which first-match and the ORM lookup agree. -/
def get_or_create (recs : List Attr) (next : Nat) (u : Nat) (nm : String) :
    Attr × List Attr × Nat :=
  match recs.find? (fun a => a.user == u && a.name == nm) with
  | some a => (a, recs, next)
  | none => (⟨next, u, nm⟩, recs ++ [⟨next, u, nm⟩], next + 1)

/-- The loop shared by BookSerializer._get_or_create_tags and
BookSerializer._get_or_create_authors: for each submitted descriptor name,
get_or_create the row for the authenticated user and add its id to the
association set of the book being built.  Returns the final association set,
the final table and the final id counter. -/
def get_or_create_list (u : Nat) :
    List Attr → Nat → List String → List Nat → List Nat × List Attr × Nat
  | recs, next, [], assoc => (assoc, recs, next)
  | recs, next, nm :: rest, assoc =>
    let g := get_or_create recs next u nm
    get_or_create_list u g.2.1 g.2.2 rest (m2mAdd assoc g.1.id)

/-- Write a book row back to the store (instance.save, or the row updates
performed by association writes): the row with the same id is replaced. -/
def storeBook (s : Store) (b : Book) : Store :=
  { s with books := s.books.map (fun x => if x.id == b.id then b else x) }

/-- BookSerializer._get_or_create_tags: reconcile the submitted tag
descriptors for the given book against the tag table and replace the stored
book accordingly. -/
def get_or_create_tags (s : Store) (u : Nat) (descs : List String) (b : Book) :
    Book × Store :=
  let r := get_or_create_list u s.tags s.nextTagId descs b.tags
  let b1 := { b with tags := r.1 }
  (b1, storeBook { s with tags := r.2.1, nextTagId := r.2.2 } b1)

/-- BookSerializer._get_or_create_authors: same as the tag version, on the
author table and the author association set. -/
def get_or_create_authors (s : Store) (u : Nat) (descs : List String) (b : Book) :
    Book × Store :=
  let r := get_or_create_list u s.authors s.nextAuthorId descs b.authors
  let b1 := { b with authors := r.1 }
  (b1, storeBook { s with authors := r.2.1, nextAuthorId := r.2.2 } b1)

/-- The strings accepted by the Python int builtin: optional surrounding
spaces, an optional sign, then a nonempty run of decimal digits.  A string
outside this shape makes int raise ValueError, embedded as none. -/
def digitsVal (cs : List Char) : Option Nat :=
  if cs ≠ [] ∧ cs.all Char.isDigit then
    some (cs.foldl (fun n c => 10 * n + (c.toNat - 48)) 0)
  else none

/-- Strip leading and trailing space characters. -/
def trimSpaces (cs : List Char) : List Char :=
  ((cs.dropWhile (fun c => c == ' ')).reverse.dropWhile (fun c => c == ' ')).reverse

/-- The Python int builtin applied to the character list of a string: some
value, or none when it raises ValueError. -/
def pyIntChars (cs : List Char) : Option Int :=
  match trimSpaces cs with
  | [] => none
  | c :: rest =>
    if c == '-' then (digitsVal rest).map (fun n => -(n : Int))
    else if c == '+' then (digitsVal rest).map (fun n => (n : Int))
    else (digitsVal (c :: rest)).map (fun n => (n : Int))

/-- The Python int builtin applied to a string. -/
def pyInt (s : String) : Option Int :=
  pyIntChars s.toList

/-- Splitting a character list on commas, with the semantics of the Python
str.split method with a separator: the empty string yields one empty piece,
and each comma separates pieces. -/
def splitCommas : List Char → List (List Char)
  | [] => [[]]
  | c :: rest =>
    if c == ',' then [] :: splitCommas rest
    else
      match splitCommas rest with
      | [] => [[c]]
      | t :: ts => (c :: t) :: ts

/-- BookViewSet._params_to_ints: split the query string on commas and apply
int to every piece.  A piece that is not an integer literal raises
ValueError, so the whole call is none. -/
def params_to_ints (qs : String) : Option (List Int) :=
  (splitCommas qs.toList).mapM pyIntChars

example : params_to_ints "1,25" = some [1, 25] := by decide
example : params_to_ints "1,x" = none := by decide
example : params_to_ints "" = none := by decide
example : pyInt "-7" = some (-7) := by decide
example : pyInt " 12 " = some 12 := by decide

/-- A nested tag or author descriptor as submitted: the name key may be
missing (none), which the nested serializer rejects. -/
structure RawDesc where
  name : Option String
deriving Repr, DecidableEq

/-- A raw book payload before validation.  A none field is an absent key.
The user key can be submitted but is not a serializer field and is dropped
by validation. -/
structure RawPayload where
  title : Option String
  price : Option Int
  link : Option String
  description : Option String
  user : Option Nat
  tags : Option (List RawDesc)
  authors : Option (List RawDesc)
deriving Repr, DecidableEq

/-- The validated_data produced by BookSerializer / BookDetailSerializer:
only the writable serializer fields survive; in particular there is no user
entry.  For a partial update, absent scalars stay none. -/
structure Validated where
  title : Option String
  price : Option Int
  link : Option String
  description : Option String
  tags : Option (List String)
  authors : Option (List String)
deriving Repr, DecidableEq

/-- Validation of one descriptor list: every descriptor must carry a name. -/
def validateDescs : List RawDesc → Option (List String)
  | [] => some []
  | d :: rest =>
    match d.name with
    | none => none
    | some nm => (validateDescs rest).map (fun l => nm :: l)

/-- Validation of an optional descriptor list: an absent key stays absent;
a present list must validate descriptor by descriptor. -/
def validateOptDescs : Option (List RawDesc) → Option (Option (List String))
  | none => some none
  | some ds => (validateDescs ds).map some

/-- Modelled from the spec: core/models.py is not among the sources, so the
model-level field constraints that serializer validation enforces are taken
from the specification text, which requires title and price on a full write
and a price that is a decimal greater than or equal to zero.  Validation of
a raw payload; patch is true for a partial update, where required scalars
may be absent.  The submitted user key is dropped: user is not among the
serializer fields. -/
def validate (patch : Bool) (p : RawPayload) : Option Validated :=
  if !patch && (p.title.isNone || p.price.isNone) then none
  else if p.price.any (fun pr => pr < 0) then none
  else
    match validateOptDescs p.tags, validateOptDescs p.authors with
    | some ts, some aus =>
      some ⟨p.title, p.price, p.link, p.description, ts, aus⟩
    | _, _ => none

/-- BookSerializer.create together with BookViewSet.perform_create: pop the
descriptor lists (defaulting to empty), create the book row bound to the
requesting user, then reconcile tags and authors with merge-add semantics. -/
def serializer_create (s : Store) (u : Nat) (v : Validated) : Book × Store :=
  let b0 : Book :=
    { id := s.nextBookId, user := u, title := v.title.getD "",
      price := v.price.getD 0, link := v.link.getD "",
      description := v.description.getD "", image := none,
      tags := [], authors := [] }
  let s0 : Store :=
    { s with books := s.books ++ [b0], nextBookId := s.nextBookId + 1 }
  let p1 := get_or_create_tags s0 u (v.tags.getD []) b0
  let p2 := get_or_create_authors p1.2 u (v.authors.getD []) p1.1
  (p2.1, p2.2)

/-- The tags branch of BookSerializer.update: when the tags key is absent
(popped default None) nothing happens; when present the association set is
cleared and repopulated from the descriptors. -/
def update_tags_step (s : Store) (u : Nat) (b : Book) :
    Option (List String) → Book × Store
  | none => (b, s)
  | some descs => get_or_create_tags s u descs { b with tags := [] }

/-- The authors branch of BookSerializer.update, same shape as the tags
branch. -/
def update_authors_step (s : Store) (u : Nat) (b : Book) :
    Option (List String) → Book × Store
  | none => (b, s)
  | some descs => get_or_create_authors s u descs { b with authors := [] }

/-- The scalar setattr loop of BookSerializer.update: each key present in
validated_data overwrites the field. -/
def apply_scalars (b : Book) (v : Validated) : Book :=
  { b with title := v.title.getD b.title, price := v.price.getD b.price,
           link := v.link.getD b.link,
           description := v.description.getD b.description }

/-- BookSerializer.update: pop tags and authors with default None, run the
two association branches, apply scalar updates, save the instance. -/
def serializer_update (s : Store) (u : Nat) (b : Book) (v : Validated) :
    Book × Store :=
  let p1 := update_tags_step s u b v.tags
  let p2 := update_authors_step p1.2 u p1.1 v.authors
  let b3 := apply_scalars p2.1 v
  (b3, storeBook p2.2 b3)

/-- The truthiness test applied to an optional query parameter by the view
code (if tags: ...): present and nonempty. -/
def truthy : Option String → Bool
  | none => false
  | some str => str ≠ ""

/-- Parsing of one comma-separated id filter parameter as the view performs
it: an absent or empty parameter applies no filter (inner none); a truthy
parameter goes through _params_to_ints, whose ValueError escapes (outer
none). -/
def parseParam : Option String → Option (Option (List Int))
  | none => some none
  | some str =>
    if str ≠ "" then (params_to_ints str).map some else some none

/-- One row per (book, associated id in the filter set): the SQL join
produced by filtering on a many-to-many id membership, before DISTINCT. -/
def filterAssocIn (rows : List Book) (proj : Book → List Nat)
    (ids : List Int) : List Book :=
  rows.flatMap (fun b =>
    ((proj b).filter (fun t => ids.contains (Int.ofNat t))).map (fun _ => b))

/-- Ordering relation of ORDER BY id DESC. -/
def bookIdGE (a b : Book) : Prop := b.id ≤ a.id

instance : DecidableRel bookIdGE := fun a b => Nat.decLe b.id a.id

instance : IsTotal Book bookIdGE := ⟨fun a b => Nat.le_total b.id a.id⟩

instance : IsTrans Book bookIdGE := ⟨fun _ _ _ h1 h2 => Nat.le_trans h2 h1⟩

/-- BookViewSet.get_queryset: parse the optional tags and authors filters
(ValueError escaping as none), join-filter on each given id set, restrict to
the requesting user, order by id descending and apply DISTINCT. -/
def book_list_queryset (s : Store) (u : Nat) (tagsP authorsP : Option String) :
    Option (List Book) := do
  let tids ← parseParam tagsP
  let aids ← parseParam authorsP
  let q0 := s.books
  let q1 := match tids with
    | none => q0
    | some ids => filterAssocIn q0 Book.tags ids
  let q2 := match aids with
    | none => q1
    | some ids => filterAssocIn q1 Book.authors ids
  return ((q2.filter (fun b => b.user == u)).insertionSort bookIdGE).dedup

/-- The object lookup of the detail routes (get_object_or_404 over
get_queryset, with no filter parameters on a detail request): find the book
with the requested pk inside the ownership-restricted queryset; none is the
404 outcome. -/
def book_get_object (s : Store) (u : Nat) (pk : Nat) : Option Book :=
  ((book_list_queryset s u none none).getD []).find? (fun b => b.id == pk)

/-- The retrieve (detail) route of BookViewSet: 404 when the pk is absent
from the caller-restricted queryset, else 200.  Reads never change the
store. -/
def book_retrieve_view (s : Store) (u : Nat) (pk : Nat) : Nat × Store :=
  match book_get_object s u pk with
  | none => (404, s)
  | some _ => (200, s)

/-- The create route of BookViewSet: validate, then serializer.save bound to
the requesting user; an invalid payload answers 400 and writes nothing. -/
def book_create_view (s : Store) (u : Nat) (p : RawPayload) : Nat × Store :=
  match validate false p with
  | none => (400, s)
  | some v => (201, (serializer_create s u v).2)

/-- The update routes (PUT when patch is false, PATCH when true) of
BookViewSet: object lookup first (404), then validation (400), then
serializer.update (200). -/
def book_update_view (s : Store) (u : Nat) (pk : Nat) (patch : Bool)
    (p : RawPayload) : Nat × Store :=
  match book_get_object s u pk with
  | none => (404, s)
  | some b =>
    match validate patch p with
    | none => (400, s)
    | some v => (200, (serializer_update s u b v).2)

/-- The destroy route of BookViewSet: object lookup first (404), then the
row and its association entries are removed (204). -/
def book_destroy_view (s : Store) (u : Nat) (pk : Nat) : Nat × Store :=
  match book_get_object s u pk with
  | none => (404, s)
  | some b => (204, { s with books := s.books.filter (fun x => x.id ≠ b.id) })

/-- An uploaded file.  Modelled from the spec: whether the bytes form a
valid image is decided by the image-field validation of the framework and
the underlying image library, external to this repository, so a validity
flag stands for that check. -/
structure ImageFile where
  path : String
  isValidImage : Bool
deriving Repr, DecidableEq

/-- BookViewSet.upload_image: object lookup first (404); a missing or
non-image file fails serializer validation (400, nothing written); a valid
image is stored on the book and answered with 200. -/
def upload_image_view (s : Store) (u : Nat) (pk : Nat) (f : Option ImageFile) :
    Nat × Store :=
  match book_get_object s u pk with
  | none => (404, s)
  | some b =>
    match f with
    | none => (400, s)
    | some file =>
      if file.isValidImage then
        (200, storeBook s { b with image := some file.path })
      else (400, s)

/-- Ordering relation of ORDER BY name DESC. -/
def attrNameGE (a b : Attr) : Prop := b.name ≤ a.name

instance : DecidableRel attrNameGE := fun a b =>
  inferInstanceAs (Decidable (b.name ≤ a.name))

instance : IsTotal Attr attrNameGE := ⟨fun a b => le_total b.name a.name⟩

instance : IsTrans Attr attrNameGE := ⟨fun _ _ _ h1 h2 => le_trans h2 h1⟩

/-- One row per (attribute, referencing book): the SQL join produced by
filter(book__isnull=False), before DISTINCT. -/
def assignedJoin (recs : List Attr) (books : List Book)
    (proj : Book → List Nat) : List Attr :=
  recs.flatMap (fun a =>
    (books.filter (fun b => (proj b).contains a.id)).map (fun _ => a))

/-- BaseBookAttrViewSet.get_queryset: read assigned_only with default 0 and
apply int then bool to it (a non-integer string raises ValueError, none);
when the flag is nonzero restrict to rows referenced by at least one book;
restrict to the requesting user, order by name descending, DISTINCT. -/
def base_attr_queryset (recs : List Attr) (books : List Book)
    (proj : Book → List Nat) (u : Nat) (assignedP : Option String) :
    Option (List Attr) := do
  let n ← match assignedP with
    | none => some (0 : Int)
    | some str => pyInt str
  let q := if n != 0 then assignedJoin recs books proj else recs
  return ((q.filter (fun a => a.user == u)).insertionSort attrNameGE).dedup

/-- TagViewSet list queryset. -/
def tag_list_queryset (s : Store) (u : Nat) (assignedP : Option String) :
    Option (List Attr) :=
  base_attr_queryset s.tags s.books Book.tags u assignedP

/-- AuthorViewSet list queryset. -/
def author_list_queryset (s : Store) (u : Nat) (assignedP : Option String) :
    Option (List Attr) :=
  base_attr_queryset s.authors s.books Book.authors u assignedP

/-- Object lookup for the tag detail routes: the requested pk inside the
caller-restricted tag queryset (no query parameters on a detail request). -/
def tag_get_object (s : Store) (u : Nat) (pk : Nat) : Option Attr :=
  ((tag_list_queryset s u none).getD []).find? (fun a => a.id == pk)

/-- Object lookup for the author detail routes. -/
def author_get_object (s : Store) (u : Nat) (pk : Nat) : Option Attr :=
  ((author_list_queryset s u none).getD []).find? (fun a => a.id == pk)

/-- The update routes of TagViewSet: object lookup first (404); the name
field is required on a full update (400 when absent), optional on a partial
one; on success the row is renamed (200). -/
def tag_update_view (s : Store) (u : Nat) (pk : Nat) (patch : Bool)
    (nm : Option String) : Nat × Store :=
  match tag_get_object s u pk with
  | none => (404, s)
  | some t =>
    match nm with
    | some newName =>
      let renamed := s.tags.map
        (fun x => if x.id == t.id then { x with name := newName } else x)
      (200, { s with tags := renamed })
    | none => if patch then (200, s) else (400, s)

/-- The update routes of AuthorViewSet, same shape as the tag version. -/
def author_update_view (s : Store) (u : Nat) (pk : Nat) (patch : Bool)
    (nm : Option String) : Nat × Store :=
  match author_get_object s u pk with
  | none => (404, s)
  | some t =>
    match nm with
    | some newName =>
      let renamed := s.authors.map
        (fun x => if x.id == t.id then { x with name := newName } else x)
      (200, { s with authors := renamed })
    | none => if patch then (200, s) else (400, s)

/-- The destroy route of TagViewSet: object lookup first (404); deletion
removes the row and cascades to the association entries referencing it. -/
def tag_destroy_view (s : Store) (u : Nat) (pk : Nat) : Nat × Store :=
  match tag_get_object s u pk with
  | none => (404, s)
  | some t =>
    let remaining := s.tags.filter (fun x => x.id ≠ t.id)
    let cascaded := s.books.map
      (fun b => { b with tags := b.tags.filter (fun i => i ≠ t.id) })
    (204, { s with tags := remaining, books := cascaded })

/-- The destroy route of AuthorViewSet. -/
def author_destroy_view (s : Store) (u : Nat) (pk : Nat) : Nat × Store :=
  match author_get_object s u pk with
  | none => (404, s)
  | some t =>
    let remaining := s.authors.filter (fun x => x.id ≠ t.id)
    let cascaded := s.books.map
      (fun b => { b with authors := b.authors.filter (fun i => i ≠ t.id) })
    (204, { s with authors := remaining, books := cascaded })

/-- A serialized field value in a response body. -/
inductive FieldValue where
  | int (n : Int)
  | str (v : String)
  | optStr (o : Option String)
  | attrs (l : List (Nat × String))
deriving Repr, DecidableEq

/-- The nested representation of an association set: the id and name pairs
of the referenced rows, read from the attribute table. -/
def attrsRepr (recs : List Attr) (ids : List Nat) : List (Nat × String) :=
  (recs.filter (fun a => ids.contains a.id)).map (fun a => (a.id, a.name))

/-- BookSerializer.Meta.fields: the list representation of a book. -/
def book_to_repr (s : Store) (b : Book) : List (String × FieldValue) :=
  [("id", .int (Int.ofNat b.id)), ("title", .str b.title),
   ("price", .int b.price), ("link", .str b.link),
   ("tags", .attrs (attrsRepr s.tags b.tags)),
   ("authors", .attrs (attrsRepr s.authors b.authors))]

/-- BookDetailSerializer.Meta.fields: the list fields plus description and
image. -/
def book_detail_to_repr (s : Store) (b : Book) : List (String × FieldValue) :=
  book_to_repr s b ++
    [("description", .str b.description), ("image", .optStr b.image)]

/-- The viewset actions that select a serializer class. -/
inductive ViewAction where
  | list
  | retrieve
  | create
  | update
  | partialUpdate
  | destroy
  | uploadImage
deriving Repr, DecidableEq

/-- The serializer classes of the book viewset. -/
inductive SerializerClass where
  | book
  | bookDetail
  | bookImage
deriving Repr, DecidableEq

/-- BookViewSet.get_serializer_class: the list action serializes with
BookSerializer, the upload action with BookImageSerializer, everything else
with BookDetailSerializer. -/
def get_serializer_class : ViewAction → SerializerClass
  | .list => .book
  | .uploadImage => .bookImage
  | _ => .bookDetail

/-! Lemmas about the reconciliation primitives. -/

theorem m2mAdd_mem (assoc : List Nat) (i j : Nat) :
    j ∈ m2mAdd assoc i ↔ j ∈ assoc ∨ j = i := by
  unfold m2mAdd
  split
  · next h =>
    constructor
    · exact Or.inl
    · rintro (h1 | rfl)
      · exact h1
      · exact h
  · simp

theorem gc_user_name (recs : List Attr) (next u : Nat) (nm : String) :
    ((get_or_create recs next u nm).1).user = u ∧
      ((get_or_create recs next u nm).1).name = nm := by
  cases h : recs.find? (fun a => a.user == u && a.name == nm) with
  | none => simp [get_or_create, h]
  | some a =>
    have hp := List.find?_some h
    simp only [Bool.and_eq_true, beq_iff_eq] at hp
    simp [get_or_create, h, hp.1, hp.2]

theorem gc_mem_res (recs : List Attr) (next u : Nat) (nm : String) :
    (get_or_create recs next u nm).1 ∈ (get_or_create recs next u nm).2.1 := by
  cases h : recs.find? (fun a => a.user == u && a.name == nm) with
  | none => simp [get_or_create, h]
  | some a =>
    simpa [get_or_create, h] using List.mem_of_find?_eq_some h

theorem gc_sub (recs : List Attr) (next u : Nat) (nm : String) :
    ∀ a ∈ recs, a ∈ (get_or_create recs next u nm).2.1 := by
  intro a ha
  cases h : recs.find? (fun x => x.user == u && x.name == nm) with
  | none => simp [get_or_create, h, ha]
  | some b => simpa [get_or_create, h] using ha

theorem gc_append (recs : List Attr) (next u : Nat) (nm : String) :
    ∃ ex, (get_or_create recs next u nm).2.1 = recs ++ ex ∧
      ∀ a ∈ ex, a.user = u ∧ a.name = nm ∧
        ∀ b ∈ recs, ¬(b.user = u ∧ b.name = nm) := by
  cases h : recs.find? (fun x => x.user == u && x.name == nm) with
  | none =>
    refine ⟨[⟨next, u, nm⟩], by simp [get_or_create, h], ?_⟩
    intro a ha
    simp only [List.mem_singleton] at ha
    subst ha
    refine ⟨rfl, rfl, ?_⟩
    intro b hb hmatch
    have := List.find?_eq_none.mp h b hb
    simp only [Bool.and_eq_true, beq_iff_eq, not_and] at this
    exact this hmatch.1 hmatch.2
  | some a => exact ⟨[], by simp [get_or_create, h], by simp⟩

theorem gc_wf (recs : List Attr) (next u : Nat) (nm : String)
    (hwf : AttrsWF recs next) :
    AttrsWF (get_or_create recs next u nm).2.1 (get_or_create recs next u nm).2.2 := by
  obtain ⟨hlt, hun, hid⟩ := hwf
  cases h : recs.find? (fun x => x.user == u && x.name == nm) with
  | some a => simpa [get_or_create, h] using ⟨hlt, hun, hid⟩
  | none =>
    have hno : ∀ b ∈ recs, ¬(b.user = u ∧ b.name = nm) := by
      intro b hb hmatch
      have := List.find?_eq_none.mp h b hb
      simp only [Bool.and_eq_true, beq_iff_eq, not_and] at this
      exact this hmatch.1 hmatch.2
    simp only [get_or_create, h]
    refine ⟨?_, ?_, ?_⟩
    · intro a ha
      rcases List.mem_append.mp ha with ha | ha
      · exact Nat.lt_succ_of_lt (hlt a ha)
      · simp only [List.mem_singleton] at ha
        subst ha
        exact Nat.lt_succ_self next
    · intro a ha b hb huser hname
      rcases List.mem_append.mp ha with ha | ha <;>
        rcases List.mem_append.mp hb with hb | hb
      · exact hun a ha b hb huser hname
      · simp only [List.mem_singleton] at hb
        subst hb
        exact absurd ⟨huser, hname⟩ (hno a ha)
      · simp only [List.mem_singleton] at ha
        subst ha
        exact absurd ⟨huser.symm, hname.symm⟩ (hno b hb)
      · simp only [List.mem_singleton] at ha hb
        rw [ha, hb]
    · intro a ha b hb hids
      rcases List.mem_append.mp ha with ha | ha <;>
        rcases List.mem_append.mp hb with hb | hb
      · exact hid a ha b hb hids
      · simp only [List.mem_singleton] at hb
        subst hb
        exact absurd hids (Nat.ne_of_lt (hlt a ha))
      · simp only [List.mem_singleton] at ha
        subst ha
        exact absurd hids.symm (Nat.ne_of_lt (hlt b hb))
      · simp only [List.mem_singleton] at ha hb
        rw [ha, hb]

theorem gc_found (recs : List Attr) (next u : Nat) (nm : String) (t0 : Attr)
    (hwf : AttrsWF recs next) (ht : t0 ∈ recs) (hu : t0.user = u)
    (hn : t0.name = nm) :
    get_or_create recs next u nm = (t0, recs, next) := by
  cases h : recs.find? (fun x => x.user == u && x.name == nm) with
  | none =>
    have := List.find?_eq_none.mp h t0 ht
    simp only [Bool.and_eq_true, beq_iff_eq, not_and] at this
    exact absurd hn (this hu)
  | some a =>
    have hp := List.find?_some h
    simp only [Bool.and_eq_true, beq_iff_eq] at hp
    have hmem := List.mem_of_find?_eq_some h
    have : a = t0 := hwf.2.1 a hmem t0 ht (hp.1.trans hu.symm) (hp.2.trans hn.symm)
    simp [get_or_create, h, this]

theorem gl_sub (u : Nat) (descs : List String) :
    ∀ (recs : List Attr) (next : Nat) (assoc : List Nat), ∀ a ∈ recs,
      a ∈ (get_or_create_list u recs next descs assoc).2.1 := by
  induction descs with
  | nil => intro recs next assoc a ha; simpa [get_or_create_list] using ha
  | cons nm rest ih =>
    intro recs next assoc a ha
    rw [get_or_create_list]
    exact ih _ _ _ a (gc_sub recs next u nm a ha)

theorem gl_wf (u : Nat) (descs : List String) :
    ∀ (recs : List Attr) (next : Nat) (assoc : List Nat), AttrsWF recs next →
      AttrsWF (get_or_create_list u recs next descs assoc).2.1
        (get_or_create_list u recs next descs assoc).2.2 := by
  induction descs with
  | nil => intro recs next assoc hwf; simpa [get_or_create_list] using hwf
  | cons nm rest ih =>
    intro recs next assoc hwf
    rw [get_or_create_list]
    exact ih _ _ _ (gc_wf recs next u nm hwf)

theorem gl_append (u : Nat) (descs : List String) :
    ∀ (recs : List Attr) (next : Nat) (assoc : List Nat), ∃ ex,
      (get_or_create_list u recs next descs assoc).2.1 = recs ++ ex ∧
        ∀ a ∈ ex, a.user = u ∧ ∀ b ∈ recs, ¬(b.user = u ∧ b.name = a.name) := by
  induction descs with
  | nil =>
    intro recs next assoc
    exact ⟨[], by simp [get_or_create_list], by simp⟩
  | cons nm rest ih =>
    intro recs next assoc
    obtain ⟨e1, he1, hp1⟩ := gc_append recs next u nm
    obtain ⟨e2, he2, hp2⟩ :=
      ih (get_or_create recs next u nm).2.1 (get_or_create recs next u nm).2.2
        (m2mAdd assoc ((get_or_create recs next u nm).1).id)
    refine ⟨e1 ++ e2, ?_, ?_⟩
    · rw [get_or_create_list]
      rw [he2, he1, List.append_assoc]
    · intro a ha
      rcases List.mem_append.mp ha with ha | ha
      · obtain ⟨hu, hn, hnone⟩ := hp1 a ha
        refine ⟨hu, ?_⟩
        intro b hb hmatch
        rw [hn] at hmatch
        exact hnone b hb hmatch
      · obtain ⟨hu, hnone⟩ := hp2 a ha
        refine ⟨hu, ?_⟩
        intro b hb
        exact hnone b (gc_sub recs next u nm b hb)

theorem gl_recs_new (u : Nat) (descs : List String) :
    ∀ (recs : List Attr) (next : Nat) (assoc : List Nat),
      ∀ a ∈ (get_or_create_list u recs next descs assoc).2.1,
        a ∈ recs ∨ (a.user = u ∧ a.name ∈ descs ∧
          ∀ b ∈ recs, ¬(b.user = u ∧ b.name = a.name)) := by
  induction descs with
  | nil =>
    intro recs next assoc a ha
    simp only [get_or_create_list] at ha
    exact Or.inl ha
  | cons nm rest ih =>
    intro recs next assoc a ha
    rw [get_or_create_list] at ha
    obtain ⟨e1, he1, hp1⟩ := gc_append recs next u nm
    rcases ih _ _ _ a ha with hmem | ⟨hu, hn, hnone⟩
    · rw [he1] at hmem
      rcases List.mem_append.mp hmem with h | h
      · exact Or.inl h
      · obtain ⟨hu, hn, hnone⟩ := hp1 a h
        refine Or.inr ⟨hu, by rw [hn]; exact List.mem_cons_self nm rest, ?_⟩
        intro b hb
        rw [hn]
        exact hnone b hb
    · refine Or.inr ⟨hu, List.mem_cons_of_mem nm hn, ?_⟩
      intro b hb
      exact hnone b (gc_sub recs next u nm b hb)

theorem gl_assoc_iff (u : Nat) (descs : List String) :
    ∀ (recs : List Attr) (next : Nat) (assoc : List Nat), AttrsWF recs next →
      ∀ i, i ∈ (get_or_create_list u recs next descs assoc).1 ↔
        (i ∈ assoc ∨ ∃ a, a ∈ (get_or_create_list u recs next descs assoc).2.1 ∧
          a.id = i ∧ a.user = u ∧ a.name ∈ descs) := by
  induction descs with
  | nil =>
    intro recs next assoc hwf i
    simp [get_or_create_list]
  | cons nm rest ih =>
    intro recs next assoc hwf i
    simp only [get_or_create_list]
    have hwf1 := gc_wf recs next u nm hwf
    have hrec := ih (get_or_create recs next u nm).2.1
      (get_or_create recs next u nm).2.2
      (m2mAdd assoc ((get_or_create recs next u nm).1).id) hwf1 i
    rw [hrec]
    have hgmem : (get_or_create recs next u nm).1 ∈
        (get_or_create_list u (get_or_create recs next u nm).2.1
          (get_or_create recs next u nm).2.2 rest
          (m2mAdd assoc ((get_or_create recs next u nm).1).id)).2.1 :=
      gl_sub u rest _ _ _ _ (gc_mem_res recs next u nm)
    have hgun := gc_user_name recs next u nm
    constructor
    · rintro (hm | ⟨a, hamem, haid, hau, han⟩)
      · rcases (m2mAdd_mem assoc ((get_or_create recs next u nm).1).id i).mp hm with
          h | rfl
        · exact Or.inl h
        · refine Or.inr ⟨(get_or_create recs next u nm).1, hgmem, rfl, hgun.1, ?_⟩
          rw [hgun.2]
          exact List.mem_cons_self nm rest
      · exact Or.inr ⟨a, hamem, haid, hau, List.mem_cons_of_mem nm han⟩
    · rintro (hm | ⟨a, hamem, haid, hau, han⟩)
      · exact Or.inl ((m2mAdd_mem assoc _ i).mpr (Or.inl hm))
      · rcases List.mem_cons.mp han with heq | hrest
        · have hwfout := gl_wf u rest _ _
            (m2mAdd assoc ((get_or_create recs next u nm).1).id) hwf1
          have haeq : a = (get_or_create recs next u nm).1 :=
            hwfout.2.1 a hamem _ hgmem (hau.trans hgun.1.symm)
              (heq.trans hgun.2.symm)
          refine Or.inl ((m2mAdd_mem assoc _ i).mpr (Or.inr ?_))
          rw [← haid, haeq]
        · exact Or.inr ⟨a, hamem, haid, hau, hrest⟩

theorem goct_book_tags (s : Store) (u : Nat) (descs : List String) (bk : Book) :
    ((get_or_create_tags s u descs bk).1).tags =
      (get_or_create_list u s.tags s.nextTagId descs bk.tags).1 := rfl

theorem goct_store_tags (s : Store) (u : Nat) (descs : List String) (bk : Book) :
    ((get_or_create_tags s u descs bk).2).tags =
      (get_or_create_list u s.tags s.nextTagId descs bk.tags).2.1 := rfl

theorem goca_book_authors (s : Store) (u : Nat) (descs : List String) (bk : Book) :
    ((get_or_create_authors s u descs bk).1).authors =
      (get_or_create_list u s.authors s.nextAuthorId descs bk.authors).1 := rfl

theorem goca_store_authors (s : Store) (u : Nat) (descs : List String) (bk : Book) :
    ((get_or_create_authors s u descs bk).2).authors =
      (get_or_create_list u s.authors s.nextAuthorId descs bk.authors).2.1 := rfl

/-- The four conclusions of the upsert-by-name claim, for one attribute
table: a pre-owned name keeps its row set for that (user, name) unchanged
and its existing id lands in the association set; rows added by the loop are
only for names the user did not own; the (user, name) identity stays unique,
so duplicate descriptor names collapse onto one row. -/
theorem gl_upsert (u : Nat) (descs : List String) (recs : List Attr)
    (next : Nat) (assoc : List Nat) (nm : String) (hwf : AttrsWF recs next) :
    (∀ t0 ∈ recs, t0.user = u → t0.name = nm → nm ∈ descs →
      ((get_or_create_list u recs next descs assoc).2.1).filter
          (fun a => a.user == u && a.name == nm) =
        recs.filter (fun a => a.user == u && a.name == nm) ∧
      t0.id ∈ (get_or_create_list u recs next descs assoc).1) ∧
    (∀ a ∈ (get_or_create_list u recs next descs assoc).2.1, a ∉ recs →
      ¬∃ b0 ∈ recs, b0.user = a.user ∧ b0.name = a.name) ∧
    (∀ a ∈ (get_or_create_list u recs next descs assoc).2.1,
      ∀ b0 ∈ (get_or_create_list u recs next descs assoc).2.1,
        a.user = b0.user → a.name = b0.name → a = b0) := by
  obtain ⟨ex, hex, hprops⟩ := gl_append u descs recs next assoc
  refine ⟨?_, ?_, ?_⟩
  · intro t0 ht hu hn hmem
    constructor
    · rw [hex, List.filter_append]
      have hnil : ex.filter (fun a => a.user == u && a.name == nm) = [] := by
        rw [List.filter_eq_nil_iff]
        intro a ha
        obtain ⟨hau, hnone⟩ := hprops a ha
        simp only [Bool.and_eq_true, beq_iff_eq, not_and]
        intro _ hnm
        exact hnone t0 ht ⟨hu, by rw [hn, ← hnm]⟩
      rw [hnil, List.append_nil]
    · refine (gl_assoc_iff u descs recs next assoc hwf t0.id).mpr
        (Or.inr ⟨t0, gl_sub u descs recs next assoc t0 ht, rfl, hu, ?_⟩)
      rw [hn]
      exact hmem
  · rintro a hmem hnotin ⟨b0, hb0, hub, hnb⟩
    rw [hex] at hmem
    rcases List.mem_append.mp hmem with h | h
    · exact hnotin h
    · obtain ⟨hau, hnone⟩ := hprops a h
      exact hnone b0 hb0 ⟨hub.trans hau, hnb⟩
  · exact (gl_wf u descs recs next assoc hwf).2.1

/-- C2: reconciliation is upsert-by-name.  For a descriptor name the
requesting user already owns, the existing row is reused (its id enters the
association set) and no row is created for that name; rows are created only
for names the user did not own; and duplicate names resolve to a single row
because the (user, name) identity stays unique.  Stated for both the tag
loop and the author loop of BookSerializer. -/
theorem reconcile_upsert_by_name (s : Store) (u : Nat) (descs : List String)
    (bk : Book) (nm : String) (hwfT : AttrsWF s.tags s.nextTagId)
    (hwfA : AttrsWF s.authors s.nextAuthorId) :
    ((∀ t0 ∈ s.tags, t0.user = u → t0.name = nm → nm ∈ descs →
        (((get_or_create_tags s u descs bk).2).tags.filter
            (fun a => a.user == u && a.name == nm) =
          s.tags.filter (fun a => a.user == u && a.name == nm) ∧
        t0.id ∈ ((get_or_create_tags s u descs bk).1).tags)) ∧
      (∀ a ∈ ((get_or_create_tags s u descs bk).2).tags, a ∉ s.tags →
        ¬∃ b0 ∈ s.tags, b0.user = a.user ∧ b0.name = a.name) ∧
      (∀ a ∈ ((get_or_create_tags s u descs bk).2).tags,
        ∀ b0 ∈ ((get_or_create_tags s u descs bk).2).tags,
          a.user = b0.user → a.name = b0.name → a = b0)) ∧
    ((∀ t0 ∈ s.authors, t0.user = u → t0.name = nm → nm ∈ descs →
        (((get_or_create_authors s u descs bk).2).authors.filter
            (fun a => a.user == u && a.name == nm) =
          s.authors.filter (fun a => a.user == u && a.name == nm) ∧
        t0.id ∈ ((get_or_create_authors s u descs bk).1).authors)) ∧
      (∀ a ∈ ((get_or_create_authors s u descs bk).2).authors, a ∉ s.authors →
        ¬∃ b0 ∈ s.authors, b0.user = a.user ∧ b0.name = a.name) ∧
      (∀ a ∈ ((get_or_create_authors s u descs bk).2).authors,
        ∀ b0 ∈ ((get_or_create_authors s u descs bk).2).authors,
          a.user = b0.user → a.name = b0.name → a = b0)) := by
  constructor
  · rw [goct_book_tags]
    simp only [goct_store_tags]
    exact gl_upsert u descs s.tags s.nextTagId bk.tags nm hwfT
  · rw [goca_book_authors]
    simp only [goca_store_authors]
    exact gl_upsert u descs s.authors s.nextAuthorId bk.authors nm hwfA

/-- C1: for every book update, a present tags (resp. authors) key makes the
association set of that kind equal exactly the set of rows resolved from the
submitted descriptors (so a present-but-empty list empties it), while an
absent key leaves it unchanged. -/
theorem book_update_replace_associations (s : Store) (u : Nat) (b : Book)
    (v : Validated) (hwfT : AttrsWF s.tags s.nextTagId)
    (hwfA : AttrsWF s.authors s.nextAuthorId) :
    ((v.tags = none → ((serializer_update s u b v).1).tags = b.tags) ∧
      (v.tags = some [] → ((serializer_update s u b v).1).tags = []) ∧
      (∀ descs, v.tags = some descs →
        ∀ i, i ∈ ((serializer_update s u b v).1).tags ↔
          ∃ a, a ∈ ((serializer_update s u b v).2).tags ∧
            a.id = i ∧ a.user = u ∧ a.name ∈ descs)) ∧
    ((v.authors = none → ((serializer_update s u b v).1).authors = b.authors) ∧
      (v.authors = some [] → ((serializer_update s u b v).1).authors = []) ∧
      (∀ descs, v.authors = some descs →
        ∀ i, i ∈ ((serializer_update s u b v).1).authors ↔
          ∃ a, a ∈ ((serializer_update s u b v).2).authors ∧
            a.id = i ∧ a.user = u ∧ a.name ∈ descs)) := by
  refine ⟨⟨?_, ?_, ?_⟩, ?_, ?_, ?_⟩
  · intro h
    cases hauth : v.authors <;>
      simp [serializer_update, update_tags_step, update_authors_step,
        get_or_create_tags, get_or_create_authors, apply_scalars, storeBook,
        h, hauth]
  · intro h
    cases hauth : v.authors <;>
      simp [serializer_update, update_tags_step, update_authors_step,
        get_or_create_tags, get_or_create_authors, apply_scalars, storeBook,
        get_or_create_list, h, hauth]
  · intro descs h i
    cases hauth : v.authors <;>
      · simp only [serializer_update, update_tags_step, update_authors_step,
          get_or_create_tags, get_or_create_authors, apply_scalars, storeBook,
          h, hauth]
        rw [gl_assoc_iff u descs s.tags s.nextTagId [] hwfT i]
        simp
  · intro h
    cases htags : v.tags <;>
      simp [serializer_update, update_tags_step, update_authors_step,
        get_or_create_tags, get_or_create_authors, apply_scalars, storeBook,
        h, htags]
  · intro h
    cases htags : v.tags <;>
      simp [serializer_update, update_tags_step, update_authors_step,
        get_or_create_tags, get_or_create_authors, apply_scalars, storeBook,
        get_or_create_list, h, htags]
  · intro descs h i
    cases htags : v.tags <;>
      · simp only [serializer_update, update_tags_step, update_authors_step,
          get_or_create_tags, get_or_create_authors, apply_scalars, storeBook,
          h, htags]
        rw [gl_assoc_iff u descs s.authors s.nextAuthorId [] hwfA i]
        simp

theorem filterAssocIn_mem (rows : List Book) (proj : Book → List Nat)
    (ids : List Int) (b : Book) :
    b ∈ filterAssocIn rows proj ids ↔
      b ∈ rows ∧ ∃ t ∈ proj b, Int.ofNat t ∈ ids := by
  unfold filterAssocIn
  simp only [List.mem_flatMap, List.mem_map, List.mem_filter]
  constructor
  · rintro ⟨c, hc, x, ⟨hx, hxid⟩, rfl⟩
    exact ⟨hc, x, hx, by simpa using hxid⟩
  · rintro ⟨hb, x, hx, hxid⟩
    exact ⟨b, hb, x, ⟨hx, by simpa using hxid⟩, rfl⟩

theorem assignedJoin_mem (recs : List Attr) (books : List Book)
    (proj : Book → List Nat) (t : Attr) :
    t ∈ assignedJoin recs books proj ↔
      t ∈ recs ∧ ∃ b ∈ books, t.id ∈ proj b := by
  unfold assignedJoin
  simp only [List.mem_flatMap, List.mem_map, List.mem_filter]
  constructor
  · rintro ⟨c, hc, x, ⟨hx, hxid⟩, rfl⟩
    exact ⟨hc, x, hx, by simpa using hxid⟩
  · rintro ⟨hb, x, hx, hxid⟩
    exact ⟨t, hb, x, ⟨hx, by simpa using hxid⟩, rfl⟩

/-- The common tail of every queryset here: restrict to the requesting user,
sort, deduplicate.  Membership is membership among the user's rows. -/
theorem mem_dedup_sort_filter (l : List Book) (u : Nat) (b : Book) :
    b ∈ ((l.filter (fun x => x.user == u)).insertionSort bookIdGE).dedup ↔
      b ∈ l ∧ b.user = u := by
  rw [List.mem_dedup, List.mem_insertionSort, List.mem_filter]
  simp

theorem mem_dedup_sort_filter_attr (l : List Attr) (u : Nat) (t : Attr) :
    t ∈ ((l.filter (fun x => x.user == u)).insertionSort attrNameGE).dedup ↔
      t ∈ l ∧ t.user = u := by
  rw [List.mem_dedup, List.mem_insertionSort, List.mem_filter]
  simp

/-- The sort-then-distinct tail yields a duplicate-free list that is still
sorted by the order relation. -/
theorem dedup_sort_nodup_pairwise (l : List Book) :
    (((l.insertionSort bookIdGE)).dedup).Nodup ∧
      (((l.insertionSort bookIdGE)).dedup).Pairwise bookIdGE :=
  ⟨List.nodup_dedup _,
    List.Pairwise.sublist (List.dedup_sublist _)
      (List.sorted_insertionSort bookIdGE l)⟩

theorem dedup_sort_nodup_pairwise_attr (l : List Attr) :
    (((l.insertionSort attrNameGE)).dedup).Nodup ∧
      (((l.insertionSort attrNameGE)).dedup).Pairwise attrNameGE :=
  ⟨List.nodup_dedup _,
    List.Pairwise.sublist (List.dedup_sublist _)
      (List.sorted_insertionSort attrNameGE l)⟩

/-- When all rows come from a well-formed book table, the sorted
deduplicated result is strictly descending in id. -/
theorem strict_desc_of_wf (s : Store) (hwf : BooksWF s.books s.nextBookId)
    (l : List Book) (hsub : ∀ b ∈ l, b ∈ s.books) :
    ((l.insertionSort bookIdGE).dedup).Pairwise (fun x y => y.id < x.id) := by
  have h1 := (dedup_sort_nodup_pairwise l).2
  have h2 : ((l.insertionSort bookIdGE).dedup).Pairwise (fun a b => a ≠ b) :=
    (dedup_sort_nodup_pairwise l).1
  have hmem : ∀ b ∈ (l.insertionSort bookIdGE).dedup, b ∈ s.books := by
    intro b hb
    rw [List.mem_dedup, List.mem_insertionSort] at hb
    exact hsub b hb
  refine (h1.and h2).imp_of_mem ?_
  intro a b haMem hbMem hrs
  refine lt_of_le_of_ne hrs.1 ?_
  intro he
  exact hrs.2 ((hwf.2 b (hmem b hbMem) a (hmem a haMem) he).symm)

/-- C4: the book list contains exactly the requesting user's books matching
every given filter (within one filter, a book qualifies when it references
at least one of the listed ids), in strictly descending id order with no
duplicates.  The otids and oaids arguments are the parsed filter parameters
(inner none meaning the filter was absent or empty). -/
theorem book_list_filtering (s : Store) (u : Nat) (tagsP authorsP : Option String)
    (otids oaids : Option (List Int)) (hwf : BooksWF s.books s.nextBookId)
    (hp : parseParam tagsP = some otids) (ha : parseParam authorsP = some oaids) :
    ∃ r, book_list_queryset s u tagsP authorsP = some r ∧
      (∀ b, b ∈ r ↔ b ∈ s.books ∧ b.user = u ∧
        (∀ ids, otids = some ids → ∃ t ∈ b.tags, Int.ofNat t ∈ ids) ∧
        (∀ ids, oaids = some ids → ∃ t ∈ b.authors, Int.ofNat t ∈ ids)) ∧
      r.Nodup ∧ r.Pairwise (fun x y => y.id < x.id) := by
  cases otids with
  | none =>
    cases oaids with
    | none =>
      refine ⟨((s.books.filter (fun b => b.user == u)).insertionSort
          bookIdGE).dedup,
        by simp [book_list_queryset, hp, ha], ?_, ?_, ?_⟩
      · intro b
        rw [mem_dedup_sort_filter]
        simp [and_assoc]
      · exact (dedup_sort_nodup_pairwise _).1
      · refine strict_desc_of_wf s hwf _ ?_
        intro b hb
        exact (List.mem_filter.mp hb).1
    | some al =>
      refine ⟨(((filterAssocIn s.books Book.authors al).filter
          (fun b => b.user == u)).insertionSort bookIdGE).dedup,
        by simp [book_list_queryset, hp, ha], ?_, ?_, ?_⟩
      · intro b
        rw [mem_dedup_sort_filter, filterAssocIn_mem]
        simp [and_assoc]
        tauto
      · exact (dedup_sort_nodup_pairwise _).1
      · refine strict_desc_of_wf s hwf _ ?_
        intro b hb
        exact ((filterAssocIn_mem _ _ _ _).mp (List.mem_filter.mp hb).1).1
  | some tl =>
    cases oaids with
    | none =>
      refine ⟨(((filterAssocIn s.books Book.tags tl).filter
          (fun b => b.user == u)).insertionSort bookIdGE).dedup,
        by simp [book_list_queryset, hp, ha], ?_, ?_, ?_⟩
      · intro b
        rw [mem_dedup_sort_filter, filterAssocIn_mem]
        simp [and_assoc]
        tauto
      · exact (dedup_sort_nodup_pairwise _).1
      · refine strict_desc_of_wf s hwf _ ?_
        intro b hb
        exact ((filterAssocIn_mem _ _ _ _).mp (List.mem_filter.mp hb).1).1
    | some al =>
      refine ⟨(((filterAssocIn (filterAssocIn s.books Book.tags tl)
          Book.authors al).filter
          (fun b => b.user == u)).insertionSort bookIdGE).dedup,
        by simp [book_list_queryset, hp, ha], ?_, ?_, ?_⟩
      · intro b
        rw [mem_dedup_sort_filter, filterAssocIn_mem, filterAssocIn_mem]
        simp [and_assoc]
        tauto
      · exact (dedup_sort_nodup_pairwise _).1
      · refine strict_desc_of_wf s hwf _ ?_
        intro b hb
        exact ((filterAssocIn_mem _ _ _ _).mp
          ((filterAssocIn_mem _ _ _ _).mp (List.mem_filter.mp hb).1).1).1

/-- The shared behaviour of BaseBookAttrViewSet.get_queryset, characterized:
the caller's rows, with the assigned-only restriction exactly when the
parsed flag is nonzero, name-descending and duplicate-free. -/
theorem base_attr_spec (recs : List Attr) (books : List Book)
    (proj : Book → List Nat) (u : Nat) (assignedP : Option String) (n : Int)
    (hn : (match assignedP with
      | none => some (0 : Int)
      | some str => pyInt str) = some n) :
    ∃ r, base_attr_queryset recs books proj u assignedP = some r ∧
      (∀ t, t ∈ r ↔ t ∈ recs ∧ t.user = u ∧
        (n ≠ 0 → ∃ b ∈ books, t.id ∈ proj b)) ∧
      r.Nodup ∧ r.Pairwise attrNameGE := by
  cases assignedP with
  | none =>
    have hn0 : n = 0 := by
      have := hn
      simp only [Option.some.injEq] at this
      exact this.symm
    subst hn0
    refine ⟨((recs.filter (fun a => a.user == u)).insertionSort
        attrNameGE).dedup,
      by simp [base_attr_queryset], ?_,
      (dedup_sort_nodup_pairwise_attr _).1,
      (dedup_sort_nodup_pairwise_attr _).2⟩
    intro t
    rw [mem_dedup_sort_filter_attr]
    simp
  | some str =>
    have hps : pyInt str = some n := hn
    by_cases h0 : n = 0
    · subst h0
      refine ⟨((recs.filter (fun a => a.user == u)).insertionSort
          attrNameGE).dedup,
        by simp [base_attr_queryset, hps], ?_,
        (dedup_sort_nodup_pairwise_attr _).1,
        (dedup_sort_nodup_pairwise_attr _).2⟩
      intro t
      rw [mem_dedup_sort_filter_attr]
      simp
    · refine ⟨(((assignedJoin recs books proj).filter
          (fun a => a.user == u)).insertionSort attrNameGE).dedup,
        by simp [base_attr_queryset, hps, h0], ?_,
        (dedup_sort_nodup_pairwise_attr _).1,
        (dedup_sort_nodup_pairwise_attr _).2⟩
      intro t
      rw [mem_dedup_sort_filter_attr, assignedJoin_mem]
      simp [h0]
      tauto

/-- C5: a tag or author list request returns exactly the requesting user's
rows, name-descending and duplicate-free; with a nonzero assigned_only flag
the rows are further restricted to those referenced by at least one book;
with the flag absent or zero all the user's rows are included. -/
theorem attr_list_assigned_only (s : Store) (u : Nat)
    (assignedP : Option String) (n : Int)
    (hn : (match assignedP with
      | none => some (0 : Int)
      | some str => pyInt str) = some n) :
    (∃ r, tag_list_queryset s u assignedP = some r ∧
      (∀ t, t ∈ r ↔ t ∈ s.tags ∧ t.user = u ∧
        (n ≠ 0 → ∃ b ∈ s.books, t.id ∈ b.tags)) ∧
      r.Nodup ∧ r.Pairwise attrNameGE) ∧
    (∃ r, author_list_queryset s u assignedP = some r ∧
      (∀ t, t ∈ r ↔ t ∈ s.authors ∧ t.user = u ∧
        (n ≠ 0 → ∃ b ∈ s.books, t.id ∈ b.authors)) ∧
      r.Nodup ∧ r.Pairwise attrNameGE) :=
  ⟨base_attr_spec s.tags s.books Book.tags u assignedP n hn,
    base_attr_spec s.authors s.books Book.authors u assignedP n hn⟩

/-- Every row of a successful book list response belongs to the requesting
user and comes from the book table. -/
theorem book_list_user_only (s : Store) (u : Nat) (tp ap : Option String)
    (r : List Book) (h : book_list_queryset s u tp ap = some r) :
    ∀ x ∈ r, x.user = u ∧ x ∈ s.books := by
  cases hp : parseParam tp with
  | none => rw [book_list_queryset, hp] at h; simp at h
  | some ot =>
    cases ha : parseParam ap with
    | none => rw [book_list_queryset, hp] at h; simp [ha] at h
    | some oa =>
      rw [book_list_queryset, hp] at h
      simp only [ha, Option.pure_def, Option.bind_eq_bind, Option.some_bind,
        Option.some.injEq] at h
      subst h
      intro x hx
      rw [mem_dedup_sort_filter] at hx
      refine ⟨hx.2, ?_⟩
      rcases ot with _ | tl <;> rcases oa with _ | al
      · exact hx.1
      · exact ((filterAssocIn_mem _ _ _ _).mp hx.1).1
      · exact ((filterAssocIn_mem _ _ _ _).mp hx.1).1
      · exact ((filterAssocIn_mem _ _ _ _).mp
          ((filterAssocIn_mem _ _ _ _).mp hx.1).1).1

/-- Every row of a successful tag or author list response belongs to the
requesting user and comes from its table. -/
theorem attr_list_user_only (recs : List Attr) (books : List Book)
    (proj : Book → List Nat) (u : Nat) (ap : Option String) (r : List Attr)
    (h : base_attr_queryset recs books proj u ap = some r) :
    ∀ x ∈ r, x.user = u ∧ x ∈ recs := by
  cases ap with
  | none =>
    rw [base_attr_queryset] at h
    simp only [Option.pure_def, Option.bind_eq_bind, Option.some_bind,
      Option.some.injEq, bne_self_eq_false, Bool.false_eq_true,
      if_false] at h
    subst h
    intro x hx
    rw [mem_dedup_sort_filter_attr] at hx
    exact ⟨hx.2, hx.1⟩
  | some str =>
    cases hps : pyInt str with
    | none => rw [base_attr_queryset, hps] at h; simp at h
    | some n =>
      rw [base_attr_queryset, hps] at h
      simp only [Option.pure_def, Option.bind_eq_bind, Option.some_bind,
        Option.some.injEq] at h
      subst h
      intro x hx
      rw [mem_dedup_sort_filter_attr] at hx
      refine ⟨hx.2, ?_⟩
      by_cases h0 : (n != 0) = true
      · rw [if_pos h0] at hx
        exact ((assignedJoin_mem _ _ _ _).mp hx.1).1
      · rw [if_neg h0] at hx
        exact hx.1

/-- A book owned by another user is invisible to the object lookup. -/
theorem book_get_object_other_user (s : Store) (u pk : Nat)
    (hwfB : BooksWF s.books s.nextBookId) (b : Book) (hb : b ∈ s.books)
    (hneq : b.user ≠ u) (hid : b.id = pk) :
    book_get_object s u pk = none := by
  unfold book_get_object
  have hq : book_list_queryset s u none none =
      some (((s.books.filter (fun x => x.user == u)).insertionSort
        bookIdGE).dedup) := rfl
  rw [hq, Option.getD_some, List.find?_eq_none]
  intro x hx
  rw [mem_dedup_sort_filter] at hx
  simp only [beq_iff_eq]
  intro hxid
  have hxb : x = b := hwfB.2 x hx.1 b hb (by rw [hxid, hid])
  rw [hxb] at hx
  exact hneq hx.2

/-- A tag or author owned by another user is invisible to the object
lookup. -/
theorem attr_get_object_other_user (recs : List Attr) (books : List Book)
    (proj : Book → List Nat) (u pk : Nat)
    (hid_unique : ∀ a ∈ recs, ∀ b ∈ recs, a.id = b.id → a = b)
    (t : Attr) (ht : t ∈ recs) (hneq : t.user ≠ u) (hid : t.id = pk) :
    ((base_attr_queryset recs books proj u none).getD []).find?
      (fun a => a.id == pk) = none := by
  have hq : base_attr_queryset recs books proj u none =
      some (((recs.filter (fun x => x.user == u)).insertionSort
        attrNameGE).dedup) := by
    rw [base_attr_queryset]
    simp
  rw [hq, Option.getD_some, List.find?_eq_none]
  intro x hx
  rw [mem_dedup_sort_filter_attr] at hx
  simp only [beq_iff_eq]
  intro hxid
  have hxt : x = t := hid_unique x hx.1 t ht (by rw [hxid, hid])
  rw [hxt] at hx
  exact hneq hx.2

/-- C3: a detail, update, delete or upload request against a book, tag or
author owned by a different user answers 404 with the store unchanged, and
such rows never appear in the requester's list responses. -/
theorem ownership_scoping (s : Store) (u pk : Nat) (patch : Bool)
    (p : RawPayload) (nm : Option String) (f : Option ImageFile)
    (tagsP authorsP assignedP : Option String) (hwf : StoreWF s) :
    (∀ b ∈ s.books, b.user ≠ u → b.id = pk →
      book_retrieve_view s u pk = (404, s) ∧
      book_update_view s u pk patch p = (404, s) ∧
      book_destroy_view s u pk = (404, s) ∧
      upload_image_view s u pk f = (404, s) ∧
      ∀ r, book_list_queryset s u tagsP authorsP = some r → b ∉ r) ∧
    (∀ t ∈ s.tags, t.user ≠ u → t.id = pk →
      tag_update_view s u pk patch nm = (404, s) ∧
      tag_destroy_view s u pk = (404, s) ∧
      ∀ r, tag_list_queryset s u assignedP = some r → t ∉ r) ∧
    (∀ t ∈ s.authors, t.user ≠ u → t.id = pk →
      author_update_view s u pk patch nm = (404, s) ∧
      author_destroy_view s u pk = (404, s) ∧
      ∀ r, author_list_queryset s u assignedP = some r → t ∉ r) := by
  obtain ⟨hwfB, hwfT, hwfA⟩ := hwf
  refine ⟨?_, ?_, ?_⟩
  · intro b hb hneq hid
    have hobj := book_get_object_other_user s u pk hwfB b hb hneq hid
    refine ⟨?_, ?_, ?_, ?_, ?_⟩
    · rw [book_retrieve_view, hobj]
    · rw [book_update_view, hobj]
    · rw [book_destroy_view, hobj]
    · rw [upload_image_view, hobj]
    · intro r hr hmem
      exact hneq (book_list_user_only s u tagsP authorsP r hr b hmem).1
  · intro t ht hneq hid
    have hobj := attr_get_object_other_user s.tags s.books Book.tags u pk
      hwfT.2.2 t ht hneq hid
    refine ⟨?_, ?_, ?_⟩
    · rw [tag_update_view]
      rw [show tag_get_object s u pk = none from hobj]
    · rw [tag_destroy_view]
      rw [show tag_get_object s u pk = none from hobj]
    · intro r hr hmem
      exact hneq (attr_list_user_only s.tags s.books Book.tags u assignedP
        r hr t hmem).1
  · intro t ht hneq hid
    have hobj := attr_get_object_other_user s.authors s.books Book.authors u pk
      hwfA.2.2 t ht hneq hid
    refine ⟨?_, ?_, ?_⟩
    · rw [author_update_view]
      rw [show author_get_object s u pk = none from hobj]
    · rw [author_destroy_view]
      rw [show author_get_object s u pk = none from hobj]
    · intro r hr hmem
      exact hneq (attr_list_user_only s.authors s.books Book.authors u
        assignedP r hr t hmem).1

/-- C10: a tags or authors query parameter that is present but equal to the
empty string applies no filter: the response equals the unfiltered listing,
which holds exactly the requesting user's books. -/
theorem empty_filter_param_ignored (s : Store) (u : Nat) :
    book_list_queryset s u (some "") (some "") =
      book_list_queryset s u none none ∧
    book_list_queryset s u (some "") none =
      book_list_queryset s u none none ∧
    book_list_queryset s u none (some "") =
      book_list_queryset s u none none ∧
    ∀ r, book_list_queryset s u none none = some r →
      ∀ b, b ∈ r ↔ b ∈ s.books ∧ b.user = u := by
  refine ⟨rfl, rfl, rfl, ?_⟩
  intro r hr b
  have hx : (((s.books.filter (fun x => x.user == u)).insertionSort
      bookIdGE).dedup) = r := Option.some.inj hr
  rw [← hx, mem_dedup_sort_filter]

/-- Replacing a book row leaves the (id, owner) column pairs unchanged when
every same-id row already carries the same owner. -/
theorem storeBook_id_user_map (s : Store) (b : Book)
    (h : ∀ x ∈ s.books, x.id = b.id → x.user = b.user) :
    (storeBook s b).books.map (fun x => (x.id, x.user)) =
      s.books.map (fun x => (x.id, x.user)) := by
  unfold storeBook
  rw [List.map_map]
  refine List.map_congr_left ?_
  intro x hx
  by_cases hid : x.id = b.id
  · simp [Function.comp, hid, h x hx hid]
  · simp [Function.comp, hid]

/-- After a book row replacement, every row sharing the written id carries
the written owner, provided the written row has the same id and owner as the
given one. -/
theorem after_storeBook_ok (s : Store) (b b2 : Book) (hid : b2.id = b.id)
    (huser : b2.user = b.user) :
    ∀ x ∈ (storeBook s b).books, x.id = b2.id → x.user = b2.user := by
  intro x hx hxid
  unfold storeBook at hx
  rw [List.mem_map] at hx
  obtain ⟨y, hy, hrep⟩ := hx
  by_cases hcase : (y.id == b.id) = true
  · rw [if_pos hcase] at hrep
    rw [← hrep, huser]
  · rw [if_neg hcase] at hrep
    exfalso
    apply hcase
    rw [← hrep] at hxid
    simp [hxid, hid]

/-- The tags branch of the update keeps ids and owners of all book rows, and
keeps the invariant that same-id rows carry the owner of the updated
book. -/
theorem uts_id_user (s : Store) (u : Nat) (b : Book) (ot : Option (List String))
    (h : ∀ x ∈ s.books, x.id = b.id → x.user = b.user) :
    ((update_tags_step s u b ot).1).id = b.id ∧
    ((update_tags_step s u b ot).1).user = b.user ∧
    ((update_tags_step s u b ot).2).books.map (fun x => (x.id, x.user)) =
      s.books.map (fun x => (x.id, x.user)) ∧
    (∀ x ∈ ((update_tags_step s u b ot).2).books,
      x.id = b.id → x.user = b.user) := by
  cases ot with
  | none => exact ⟨rfl, rfl, rfl, h⟩
  | some descs =>
    refine ⟨rfl, rfl, ?_, ?_⟩
    · exact storeBook_id_user_map _ _ h
    · exact after_storeBook_ok _ _ b rfl rfl

/-- The authors branch of the update, same facts as the tags branch. -/
theorem uas_id_user (s : Store) (u : Nat) (b : Book) (oa : Option (List String))
    (h : ∀ x ∈ s.books, x.id = b.id → x.user = b.user) :
    ((update_authors_step s u b oa).1).id = b.id ∧
    ((update_authors_step s u b oa).1).user = b.user ∧
    ((update_authors_step s u b oa).2).books.map (fun x => (x.id, x.user)) =
      s.books.map (fun x => (x.id, x.user)) ∧
    (∀ x ∈ ((update_authors_step s u b oa).2).books,
      x.id = b.id → x.user = b.user) := by
  cases oa with
  | none => exact ⟨rfl, rfl, rfl, h⟩
  | some descs =>
    refine ⟨rfl, rfl, ?_, ?_⟩
    · exact storeBook_id_user_map _ _ h
    · exact after_storeBook_ok _ _ b rfl rfl

/-- A serializer update never changes the id or the owner of any book
row. -/
theorem serializer_update_id_user (s : Store) (u : Nat) (b : Book)
    (v : Validated) (h : ∀ x ∈ s.books, x.id = b.id → x.user = b.user) :
    ((serializer_update s u b v).2).books.map (fun x => (x.id, x.user)) =
      s.books.map (fun x => (x.id, x.user)) := by
  obtain ⟨ht_id, ht_user, ht_map, ht_inv⟩ := uts_id_user s u b v.tags h
  have hinv1 : ∀ x ∈ ((update_tags_step s u b v.tags).2).books,
      x.id = ((update_tags_step s u b v.tags).1).id →
        x.user = ((update_tags_step s u b v.tags).1).user := by
    intro x hx hxid
    rw [ht_user]
    exact ht_inv x hx (by rw [← ht_id]; exact hxid)
  obtain ⟨ha_id, ha_user, ha_map, ha_inv⟩ :=
    uas_id_user ((update_tags_step s u b v.tags).2) u
      ((update_tags_step s u b v.tags).1) v.authors hinv1
  unfold serializer_update
  have hfinal := storeBook_id_user_map
    ((update_authors_step ((update_tags_step s u b v.tags).2) u
      ((update_tags_step s u b v.tags).1) v.authors).2)
    (apply_scalars ((update_authors_step ((update_tags_step s u b v.tags).2) u
      ((update_tags_step s u b v.tags).1) v.authors).1) v)
    (by
      intro x hx hxid
      have h1 : x.id = ((update_authors_step ((update_tags_step s u b v.tags).2)
          u ((update_tags_step s u b v.tags).1) v.authors).1).id := hxid
      rw [ha_id] at h1
      have h2 := ha_inv x hx h1
      show x.user = ((update_authors_step ((update_tags_step s u b v.tags).2)
        u ((update_tags_step s u b v.tags).1) v.authors).1).user
      rw [ha_user]
      exact h2)
  rw [hfinal, ha_map, ht_map]

/-- C9: a book update through the API never changes the owner of any book
row: the user key is not a writable serializer field (validation is
literally insensitive to it) and the scalar loop sets only validated
fields. -/
theorem book_update_preserves_owner (s : Store) (u pk : Nat) (patch : Bool)
    (p : RawPayload) (hwf : BooksWF s.books s.nextBookId) :
    (∀ x : Nat, book_update_view s u pk patch { p with user := some x } =
      book_update_view s u pk patch { p with user := none }) ∧
    ((book_update_view s u pk patch p).2).books.map (fun x => (x.id, x.user)) =
      s.books.map (fun x => (x.id, x.user)) := by
  refine ⟨fun x => rfl, ?_⟩
  unfold book_update_view
  cases hobj : book_get_object s u pk with
  | none => rfl
  | some b =>
    cases hv : validate patch p with
    | none => rfl
    | some v =>
      have hbmem : b ∈ s.books := by
        unfold book_get_object at hobj
        have hmem := List.mem_of_find?_eq_some hobj
        have hq : book_list_queryset s u none none =
            some (((s.books.filter (fun x => x.user == u)).insertionSort
              bookIdGE).dedup) := rfl
        rw [hq, Option.getD_some, mem_dedup_sort_filter] at hmem
        exact hmem.1
      exact serializer_update_id_user s u b v
        (fun x hx hxid => by rw [hwf.2 x hx b hbmem hxid])

/-- A descriptor without a name fails list validation. -/
theorem validateDescs_missing (ds : List RawDesc) (d : RawDesc)
    (hd : d ∈ ds) (hn : d.name = none) : validateDescs ds = none := by
  induction ds with
  | nil => cases hd
  | cons d0 rest ih =>
    rcases List.mem_cons.mp hd with rfl | hmem
    · simp [validateDescs, hn]
    · cases h0 : d0.name with
      | none => simp [validateDescs, h0]
      | some nm => simp [validateDescs, h0, ih hmem]

/-- C6: an invalid payload (missing required scalar on a full write,
negative price, a nested descriptor without a name, or a missing or
non-image upload file) is rejected by validation, the response is 400 (or
404 when the object lookup already failed), and the store is entirely
unchanged: no write of any kind happens. -/
theorem validation_rejects_without_write (s : Store) (u pk : Nat)
    (patch : Bool) (p : RawPayload) (f : ImageFile) :
    ((p.title = none ∨ p.price = none) → validate false p = none) ∧
    (∀ pr, p.price = some pr → pr < 0 → validate patch p = none) ∧
    (∀ ds d, p.tags = some ds → d ∈ ds → d.name = none →
      validate patch p = none) ∧
    (∀ ds d, p.authors = some ds → d ∈ ds → d.name = none →
      validate patch p = none) ∧
    (validate false p = none → book_create_view s u p = (400, s)) ∧
    (validate patch p = none →
      book_update_view s u pk patch p = (400, s) ∨
      book_update_view s u pk patch p = (404, s)) ∧
    (upload_image_view s u pk none = (400, s) ∨
      upload_image_view s u pk none = (404, s)) ∧
    (f.isValidImage = false →
      upload_image_view s u pk (some f) = (400, s) ∨
      upload_image_view s u pk (some f) = (404, s)) := by
  refine ⟨?_, ?_, ?_, ?_, ?_, ?_, ?_, ?_⟩
  · rintro (h | h) <;> simp [validate, h]
  · intro pr hp hlt
    simp [validate, hp, hlt]
  · intro ds d htags hd hn
    cases hA : validateOptDescs p.authors <;>
      simp [validate, validateOptDescs, htags, validateDescs_missing ds d hd hn,
        hA]
  · intro ds d hauth hd hn
    cases hT : validateOptDescs p.tags <;>
      simp [validate, validateOptDescs, hauth, validateDescs_missing ds d hd hn,
        hT]
  · intro h
    simp [book_create_view, h]
  · intro h
    cases hobj : book_get_object s u pk with
    | none => exact Or.inr (by rw [book_update_view, hobj])
    | some b => exact Or.inl (by rw [book_update_view, hobj, h])
  · cases hobj : book_get_object s u pk with
    | none => exact Or.inr (by simp [upload_image_view, hobj])
    | some b => exact Or.inl (by simp [upload_image_view, hobj])
  · intro h
    cases hobj : book_get_object s u pk with
    | none => exact Or.inr (by simp [upload_image_view, hobj])
    | some b => exact Or.inl (by simp [upload_image_view, hobj, h])

/-- C8: the list representation of a book carries exactly the fields id,
title, price, link, tags and authors, in that order; the detail
representation carries exactly those plus description and image; every
field-value pair of the list representation appears unchanged in the detail
representation; and the view selects the list serializer for the list
action, the detail serializer for retrieval and the image serializer for
upload. -/
theorem representation_fields (s : Store) (b : Book) :
    (book_to_repr s b).map Prod.fst =
      ["id", "title", "price", "link", "tags", "authors"] ∧
    (book_detail_to_repr s b).map Prod.fst =
      ["id", "title", "price", "link", "tags", "authors",
        "description", "image"] ∧
    ("description" ∉ (book_to_repr s b).map Prod.fst ∧
      "image" ∉ (book_to_repr s b).map Prod.fst) ∧
    (∀ kv ∈ book_to_repr s b, kv ∈ book_detail_to_repr s b) ∧
    get_serializer_class .list = .book ∧
    get_serializer_class .retrieve = .bookDetail ∧
    get_serializer_class .uploadImage = .bookImage := by
  refine ⟨rfl, rfl, ⟨?_, ?_⟩, ?_, rfl, rfl, rfl⟩
  · simp [book_to_repr]
  · simp [book_to_repr]
  · intro kv hkv
    show kv ∈ book_to_repr s b ++
      [("description", FieldValue.str b.description),
        ("image", FieldValue.optStr b.image)]
    exact List.mem_append_left _ hkv

/-- Example fixtures: two users, two books, two tags with the same name but
different owners, one author. -/
def exTagA : Attr := { id := 1, user := 1, name := "alpha" }

def exTagB : Attr := { id := 2, user := 2, name := "alpha" }

def exAuthorA : Attr := { id := 1, user := 1, name := "bob" }

def exBook1 : Book :=
  { id := 1, user := 1, title := "First", price := 525,
    link := "http://example.com/book.pdf", description := "sample",
    image := none, tags := [1], authors := [1] }

def exBook2 : Book :=
  { id := 2, user := 2, title := "Second", price := 300, link := "",
    description := "", image := none, tags := [2], authors := [] }

def exStore : Store :=
  { books := [exBook1, exBook2], tags := [exTagA, exTagB],
    authors := [exAuthorA], nextBookId := 3, nextTagId := 3,
    nextAuthorId := 2 }

/-- C7 counterexample: a list request whose filter parameter holds a
non-integer token does not produce a documented response; the int call
raises a ValueError that nothing in this layer catches (embedded as none),
so the claim that request handling never aborts with an unhandled exception
fails at this input. -/
theorem nonint_filter_token_uncaught :
    book_list_queryset exStore 1 (some "abc") none = none ∧
    tag_list_queryset exStore 1 (some "x") = none ∧
    author_list_queryset exStore 1 (some "") = none := by
  refine ⟨?_, ?_, ?_⟩ <;> decide

/-- C7 amended: request handling produces a documented response whenever
the tags and authors parameters, if present and nonempty, are
comma-separated integer tokens, and the assigned_only parameter, if
present, is an integer token; a non-integer token instead raises an
uncaught ValueError. -/
theorem list_requests_no_exception (s : Store) (u : Nat)
    (tagsP authorsP assignedP : Option String)
    (ht : (parseParam tagsP).isSome) (ha : (parseParam authorsP).isSome)
    (hn : (match assignedP with
      | none => some (0 : Int)
      | some str => pyInt str).isSome) :
    (book_list_queryset s u tagsP authorsP).isSome ∧
    (tag_list_queryset s u assignedP).isSome ∧
    (author_list_queryset s u assignedP).isSome := by
  obtain ⟨ot, hot⟩ := Option.isSome_iff_exists.mp ht
  obtain ⟨oa, hoa⟩ := Option.isSome_iff_exists.mp ha
  refine ⟨by simp [book_list_queryset, hot, hoa], ?_, ?_⟩ <;>
    · cases hap : assignedP with
      | none => simp [tag_list_queryset, author_list_queryset,
          base_attr_queryset]
      | some str =>
        rw [hap] at hn
        obtain ⟨n, hn2⟩ := Option.isSome_iff_exists.mp hn
        have hn3 : pyInt str = some n := hn2
        simp [tag_list_queryset, author_list_queryset, base_attr_queryset,
          hn3]

/-- Example validated update payload: replace the tag set, touch nothing
else. -/
def exVal1 : Validated :=
  { title := none, price := none, link := none, description := none,
    tags := some ["alpha", "new"], authors := none }

/-- Example raw payload with every key absent. -/
def exPayloadEmpty : RawPayload :=
  { title := none, price := none, link := none, description := none,
    user := none, tags := none, authors := none }

/-- Example raw payload that tries to reassign the owner. -/
def exPayloadUser : RawPayload :=
  { title := some "Renamed", price := some 100, link := none,
    description := none, user := some 2, tags := none, authors := none }

/-- Example upload that is not a valid image. -/
def exBadFile : ImageFile := { path := "junk.txt", isValidImage := false }

theorem book_update_replace_associations_witness :
    AttrsWF exStore.tags exStore.nextTagId ∧
    AttrsWF exStore.authors exStore.nextAuthorId ∧
    (1 ∈ ((serializer_update exStore 1 exBook1 exVal1).1).tags ↔
      ∃ a, a ∈ ((serializer_update exStore 1 exBook1 exVal1).2).tags ∧
        a.id = 1 ∧ a.user = 1 ∧ a.name ∈ ["alpha", "new"]) :=
  ⟨by decide, by decide,
    (book_update_replace_associations exStore 1 exBook1 exVal1 (by decide)
      (by decide)).1.2.2 ["alpha", "new"] rfl 1⟩

theorem reconcile_upsert_by_name_witness :
    AttrsWF exStore.tags exStore.nextTagId ∧
    AttrsWF exStore.authors exStore.nextAuthorId ∧
    exTagA ∈ exStore.tags ∧
    (((get_or_create_tags exStore 1 ["alpha", "beta"] exBook1).2).tags.filter
        (fun a => a.user == 1 && a.name == "alpha") =
      exStore.tags.filter (fun a => a.user == 1 && a.name == "alpha") ∧
      exTagA.id ∈
        ((get_or_create_tags exStore 1 ["alpha", "beta"] exBook1).1).tags) :=
  ⟨by decide, by decide, by decide,
    (reconcile_upsert_by_name exStore 1 ["alpha", "beta"] exBook1 "alpha"
      (by decide) (by decide)).1.1 exTagA (by decide) rfl rfl (by decide)⟩

theorem ownership_scoping_witness :
    StoreWF exStore ∧
    (book_retrieve_view exStore 1 2 = (404, exStore) ∧
      book_update_view exStore 1 2 true exPayloadEmpty = (404, exStore) ∧
      book_destroy_view exStore 1 2 = (404, exStore) ∧
      upload_image_view exStore 1 2 none = (404, exStore)) :=
  ⟨by decide, by
    have h := (ownership_scoping exStore 1 2 true exPayloadEmpty none none
      none none none (by decide)).1 exBook2 (by decide) (by decide) rfl
    exact ⟨h.1, h.2.1, h.2.2.1, h.2.2.2.1⟩⟩

theorem book_list_filtering_witness :
    BooksWF exStore.books exStore.nextBookId ∧
    parseParam (some "1,2") = some (some [1, 2]) ∧
    parseParam none = some none ∧
    ∃ r, book_list_queryset exStore 1 (some "1,2") none = some r ∧
      (∀ b, b ∈ r ↔ b ∈ exStore.books ∧ b.user = 1 ∧
        (∀ ids, (some [(1 : Int), 2] : Option (List Int)) = some ids →
          ∃ t ∈ b.tags, Int.ofNat t ∈ ids) ∧
        (∀ ids, (none : Option (List Int)) = some ids →
          ∃ t ∈ b.authors, Int.ofNat t ∈ ids)) ∧
      r.Nodup ∧ r.Pairwise (fun x y => y.id < x.id) :=
  ⟨by decide, by decide, by decide,
    book_list_filtering exStore 1 (some "1,2") none (some [1, 2]) none
      (by decide) (by decide) (by decide)⟩

theorem attr_list_assigned_only_witness :
    (match (some "1" : Option String) with
      | none => some (0 : Int)
      | some str => pyInt str) = some 1 ∧
    ((∃ r, tag_list_queryset exStore 1 (some "1") = some r ∧
      (∀ t, t ∈ r ↔ t ∈ exStore.tags ∧ t.user = 1 ∧
        ((1 : Int) ≠ 0 → ∃ b ∈ exStore.books, t.id ∈ b.tags)) ∧
      r.Nodup ∧ r.Pairwise attrNameGE) ∧
    (∃ r, author_list_queryset exStore 1 (some "1") = some r ∧
      (∀ t, t ∈ r ↔ t ∈ exStore.authors ∧ t.user = 1 ∧
        ((1 : Int) ≠ 0 → ∃ b ∈ exStore.books, t.id ∈ b.authors)) ∧
      r.Nodup ∧ r.Pairwise attrNameGE)) :=
  ⟨by decide, attr_list_assigned_only exStore 1 (some "1") 1 (by decide)⟩

theorem validation_rejects_without_write_witness :
    validate false exPayloadEmpty = none ∧
    book_create_view exStore 1 exPayloadEmpty = (400, exStore) ∧
    (upload_image_view exStore 1 1 (some exBadFile) = (400, exStore) ∨
      upload_image_view exStore 1 1 (some exBadFile) = (404, exStore)) := by
  have h := validation_rejects_without_write exStore 1 1 false exPayloadEmpty
    exBadFile
  have hv : validate false exPayloadEmpty = none :=
    h.1 (Or.inl rfl)
  exact ⟨hv, h.2.2.2.2.1 hv, h.2.2.2.2.2.2.2 rfl⟩

theorem list_requests_no_exception_witness :
    (parseParam (some "3")).isSome ∧
    (parseParam (none : Option String)).isSome ∧
    (match (some "1" : Option String) with
      | none => some (0 : Int)
      | some str => pyInt str).isSome ∧
    ((book_list_queryset exStore 1 (some "3") none).isSome ∧
      (tag_list_queryset exStore 1 (some "1")).isSome ∧
      (author_list_queryset exStore 1 (some "1")).isSome) :=
  ⟨by decide, by decide, by decide,
    list_requests_no_exception exStore 1 (some "3") none (some "1")
      (by decide) (by decide) (by decide)⟩

theorem representation_fields_witness :
    (book_to_repr exStore exBook1).map Prod.fst =
      ["id", "title", "price", "link", "tags", "authors"] ∧
    (book_detail_to_repr exStore exBook1).map Prod.fst =
      ["id", "title", "price", "link", "tags", "authors",
        "description", "image"] ∧
    get_serializer_class .list = .book ∧
    get_serializer_class .retrieve = .bookDetail := by
  have h := representation_fields exStore exBook1
  exact ⟨h.1, h.2.1, h.2.2.2.2.1, h.2.2.2.2.2.1⟩

theorem book_update_preserves_owner_witness :
    BooksWF exStore.books exStore.nextBookId ∧
    ((book_update_view exStore 1 1 true exPayloadUser).2).books.map
        (fun x => (x.id, x.user)) =
      exStore.books.map (fun x => (x.id, x.user)) :=
  ⟨by decide,
    (book_update_preserves_owner exStore 1 1 true exPayloadUser
      (by decide)).2⟩

theorem empty_filter_param_ignored_witness :
    book_list_queryset exStore 1 (some "") (some "") =
      book_list_queryset exStore 1 none none ∧
    (exBook1 ∈ ((book_list_queryset exStore 1 none none).getD []) ↔
      exBook1 ∈ exStore.books ∧ exBook1.user = 1) := by
  have h := empty_filter_param_ignored exStore 1
  exact ⟨h.1, h.2.2.2 _ rfl exBook1⟩
